import Mathlib

/-!
Verification development for the `BSwap16` storage backend (`bswap16.cpp`).

The backend exposes a fixed-block-size device over a regular file and swaps
every pair of adjacent bytes on each transfer.  The C++ class owns a
`std::fstream`; we embed the stream as its observable state: the file
contents (a list of bytes) together with the latched error flag
(`failbit`/`badbit`), which the code never clears.  All machine integers in
the source are used as non-negative sizes and indices, so they are embedded
as `Nat`.
-/

namespace NbdCpp

/-- Bytes are moved around verbatim (no arithmetic is ever performed on
them), so a byte is just a natural number. -/
abbrev Byte := Nat

/-- Observable state of the `std::fstream _file` member: the file contents
and the stream error flag.  `err = true` models `failbit`/`badbit` being
set; the class never calls `clear()`, so the flag is latched.  `good()`
on the stream is `!err`. -/
structure FileState where
  bytes : List Byte
  err : Bool
deriving DecidableEq, Repr

/-- `_file.seekg(pos); _file.read(buf, n)` on a stream.  On a stream whose
error flag is set, both calls fail immediately and the buffer is untouched.
Otherwise, if `n` bytes are available from `pos`, they replace the first
`n` bytes of the caller buffer; a short read stores only the available
bytes and sets the error flag (iostreams latch `failbit` on a partial
`read`). -/
def fsRead (f : FileState) (pos n : Nat) (buf : List Byte) :
    FileState × List Byte :=
  if f.err then (f, buf)
  else if n ≤ f.bytes.length - pos then
    (f, (f.bytes.drop pos).take n ++ buf.drop n)
  else
    ({ f with err := true },
      (f.bytes.drop pos).take (f.bytes.length - pos)
        ++ buf.drop (f.bytes.length - pos))

/-- `_file.seekp(pos); _file.write(data, data.length)` on a stream.  On a
stream whose error flag is set both calls fail and nothing changes.
Otherwise the bytes at `[pos, pos + data.length)` are replaced; seeking
past the end of the file and writing extends it, the gap being
zero-filled (sparse-extend semantics of a regular file). -/
def fsWrite (f : FileState) (pos : Nat) (data : List Byte) : FileState :=
  if f.err then f
  else
    { f with bytes := f.bytes.take pos
        ++ List.replicate (pos - f.bytes.length) 0
        ++ data
        ++ f.bytes.drop (pos + data.length) }

/-- The byte-swap loop shared by `read`, `write`, `multiread` and
`multiwrite`: `for (i = 0; i < len; i += 2) swap(d[i], d[i+1])`.  Each
even offset is exchanged with its successor; a trailing unpaired byte of
an odd-length buffer is left untouched. -/
def bswap : List Byte → List Byte
  | a :: b :: rest => b :: a :: bswap rest
  | l => l

/-- The swap loop applied to the first `n` bytes of a (possibly longer)
caller buffer, as the `read`/`multiread` loops do: the loop bound is
`blocksize()` resp. `count * blocksize()`, not the buffer length. -/
def swapFirst (n : Nat) (buf : List Byte) : List Byte :=
  bswap (buf.take n) ++ buf.drop n

/-- The fatal configuration errors diagnosed by the constructor; each one
prints a diagnostic and calls `exit(1)`. -/
inductive ConfigError where
  /-- `"Error: file ... does not exist or could not be opened"` -/
  | noFileNoSize
  /-- `"ERROR: could not open or create file ..."` -/
  | cannotOpenOrCreate
  /-- `"Error: file is empty and you did not specify a size"` -/
  | emptyNoSize
deriving DecidableEq, Repr

/-- The backend object: the owned stream plus the `_nblocks` member fixed
by the constructor.  The block size is the template parameter `BS` and is
passed explicitly to each operation. -/
structure BSwap16 where
  file : FileState
  nblocks : Nat
deriving DecidableEq, Repr

namespace BSwap16

/-- `good()`: `return _file.good();` -/
def good (st : BSwap16) : Bool := !st.file.err

/-- `blocksize()`: the template parameter `BS`. -/
def blocksize (BS : Nat) : Nat := BS

/-- `numblocks()`: `return _nblocks;` -/
def numblocks (st : BSwap16) : Nat := st.nblocks

/-- Size in bytes of the backing file. -/
def fileSize (st : BSwap16) : Nat := st.file.bytes.length

/-- Second half of the constructor (lines 43-61): resolve `_nblocks` from
the requested count and the actual file size, growing the file via
`seekp(totsize - 1); put('\0')` when it is too small. -/
def resolve (BS : Nat) (contents : List Byte) (nblocks : Nat) :
    Except ConfigError BSwap16 :=
  if nblocks = 0 then
    if contents.length = 0 then Except.error ConfigError.emptyNoSize
    else Except.ok ⟨⟨contents, false⟩, contents.length / BS⟩
  else
    let totsize := nblocks * BS
    if contents.length < totsize then
      Except.ok ⟨fsWrite ⟨contents, false⟩ (totsize - 1) [0], nblocks⟩
    else
      Except.ok ⟨⟨contents, false⟩, nblocks⟩

/-- The constructor.  `opened = some contents` models the initial open of
`fname` succeeding on an existing file with those contents (its size is
then measured by seeking to the end); `opened = none` models the open
failing, after which — if a nonzero count was requested — the code retries
with `trunc`, whose success is modelled by `createOk` and which yields an
empty file.  `exit(1)` is modelled as `Except.error`: no instance is
produced. -/
def construct (BS : Nat) (opened : Option (List Byte)) (createOk : Bool)
    (nblocks : Nat) : Except ConfigError BSwap16 :=
  match opened with
  | some contents => resolve BS contents nblocks
  | none =>
      if nblocks = 0 then Except.error ConfigError.noFileNoSize
      else if createOk then resolve BS [] nblocks
      else Except.error ConfigError.cannotOpenOrCreate

/-- `read(index, data)`: seek the get pointer to `index * blocksize()`,
read `blocksize()` bytes into the caller buffer, then run the swap loop
over the first `blocksize()` bytes of the buffer (the loop runs
unconditionally, even if the stream transfer failed).  Returns the new
backend state and the caller buffer contents after the call. -/
def read (BS : Nat) (st : BSwap16) (index : Nat) (data : List Byte) :
    BSwap16 × List Byte :=
  let r := fsRead st.file (index * BS) BS data
  ({ st with file := r.1 }, swapFirst BS r.2)

/-- `write(index, data)`: copy `blocksize()` bytes of the caller buffer
into a freshly allocated scratch buffer `d`, run the swap loop over `d`,
seek the put pointer to `index * blocksize()` and write `d`.  The caller
buffer is never touched; the pair returns it unchanged alongside the new
state. -/
def write (BS : Nat) (st : BSwap16) (index : Nat) (data : List Byte) :
    BSwap16 × List Byte :=
  let d := bswap (data.take BS)
  ({ st with file := fsWrite st.file (index * BS) d }, data)

/-- `multiread(index, count, data)`: same as `read` with `count *
blocksize()` bytes transferred and swapped. -/
def multiread (BS : Nat) (st : BSwap16) (index count : Nat)
    (data : List Byte) : BSwap16 × List Byte :=
  let r := fsRead st.file (index * BS) (count * BS) data
  ({ st with file := r.1 }, swapFirst (count * BS) r.2)

/-- `multiwrite(index, count, data)`: same as `write` with a scratch
buffer of `count * blocksize()` bytes. -/
def multiwrite (BS : Nat) (st : BSwap16) (index count : Nat)
    (data : List Byte) : BSwap16 × List Byte :=
  let d := bswap (data.take (count * BS))
  ({ st with file := fsWrite st.file (index * BS) d }, data)

/-- `flushes()`: `return true;` -/
def flushes : Bool := true

/-- `flush()`: `_file.flush();` — no observable effect on the embedded
state (contents unchanged; a latched error flag stays latched). -/
def flush (st : BSwap16) : BSwap16 := st

/-- `trims()`: `return false;` -/
def trims : Bool := false

/-- `trim(index, count)`: `{ }` — a no-op. -/
def trim (st : BSwap16) (_index _count : Nat) : BSwap16 := st

end BSwap16

/-- The operations the external dispatcher can invoke on a constructed
backend, each carrying its arguments. -/
inductive Op where
  | opRead (index : Nat) (buf : List Byte)
  | opWrite (index : Nat) (buf : List Byte)
  | opMultiread (index count : Nat) (buf : List Byte)
  | opMultiwrite (index count : Nat) (buf : List Byte)
  | opFlush
  | opTrim (index count : Nat)

/-- Effect of one dispatched operation on the backend state. -/
def applyOp (BS : Nat) (st : BSwap16) : Op → BSwap16
  | .opRead i b => (BSwap16.read BS st i b).1
  | .opWrite i b => (BSwap16.write BS st i b).1
  | .opMultiread i c b => (BSwap16.multiread BS st i c b).1
  | .opMultiwrite i c b => (BSwap16.multiwrite BS st i c b).1
  | .opFlush => BSwap16.flush st
  | .opTrim i c => BSwap16.trim st i c

/-! ### Helper lemmas about the embedded stream and the swap loop -/

/-- The swap loop is an involution on any buffer (an odd trailing byte is
left in place both times). -/
theorem bswap_bswap : ∀ l : List Byte, bswap (bswap l) = l
  | [] => rfl
  | [_] => rfl
  | a :: b :: rest => by simp [bswap, bswap_bswap rest]

/-- The swap loop preserves the buffer length. -/
theorem bswap_length : ∀ l : List Byte, (bswap l).length = l.length
  | [] => rfl
  | [_] => rfl
  | a :: b :: rest => by simp [bswap, bswap_length rest]

/-- Running the swap loop over the whole buffer. -/
theorem swapFirst_of_length_eq (n : Nat) (l : List Byte) (h : l.length = n) :
    swapFirst n l = bswap l := by
  simp [swapFirst, List.take_of_length_le (le_of_eq h),
    List.drop_eq_nil_of_le (le_of_eq h)]

/-- A stream write never changes the error flag (seek and write fail
silently on an already-failed stream; on a good stream they succeed). -/
theorem fsWrite_err (f : FileState) (pos : Nat) (data : List Byte) :
    (fsWrite f pos data).err = f.err := by
  unfold fsWrite; split <;> rfl

/-- Size of the file after a successful write: the write extends the file
exactly up to the end of the written range if needed, and never shrinks
it. -/
theorem fsWrite_length (f : FileState) (pos : Nat) (data : List Byte)
    (hf : f.err = false) :
    (fsWrite f pos data).bytes.length = max f.bytes.length (pos + data.length) := by
  simp [fsWrite, hf]
  omega

/-- A write never shrinks the file, whether the stream is healthy or
not. -/
theorem fsWrite_length_ge (f : FileState) (pos : Nat) (data : List Byte) :
    f.bytes.length ≤ (fsWrite f pos data).bytes.length := by
  by_cases h : f.err = true
  · simp [fsWrite, h]
  · rw [fsWrite_length f pos data (by simpa using h)]
    omega

/-- The bytes just stored by a successful write are found on the file at
the write position. -/
theorem fsWrite_drop_take (f : FileState) (pos : Nat) (data : List Byte)
    (hf : f.err = false) :
    ((fsWrite f pos data).bytes.drop pos).take data.length = data := by
  have h1 : (f.bytes.take pos
      ++ List.replicate (pos - f.bytes.length) (0 : Byte)).length = pos := by
    simp [List.length_take]
    omega
  simp only [fsWrite, hf, Bool.false_eq_true, if_false]
  rw [List.append_assoc, List.drop_left' h1, List.take_left' rfl]

/-- Bytes before the write position are untouched by a successful write
(stated for a position at or past the end of the file, the growth case of
the constructor). -/
theorem fsWrite_take_of_ge (f : FileState) (pos : Nat) (data : List Byte)
    (hf : f.err = false) (h : f.bytes.length ≤ pos) :
    (fsWrite f pos data).bytes.take f.bytes.length = f.bytes := by
  simp only [fsWrite, hf, Bool.false_eq_true, if_false]
  rw [List.take_of_length_le h, List.append_assoc, List.append_assoc,
    List.take_left' rfl]

/-- A read within the current file size on a healthy stream succeeds: the
requested slice of the file replaces the front of the caller buffer and
the stream state is unchanged. -/
theorem fsRead_full (f : FileState) (pos n : Nat) (buf : List Byte)
    (hf : f.err = false) (h : pos + n ≤ f.bytes.length) :
    fsRead f pos n buf = (f, (f.bytes.drop pos).take n ++ buf.drop n) := by
  simp only [fsRead, hf, Bool.false_eq_true, if_false]
  rw [if_pos (by omega)]

/-- A stream read never changes the file contents. -/
theorem fsRead_bytes (f : FileState) (pos n : Nat) (buf : List Byte) :
    (fsRead f pos n buf).1.bytes = f.bytes := by
  unfold fsRead
  split
  · rfl
  · split <;> rfl

/-- A failed stream stays failed across a read. -/
theorem fsRead_err_of_err (f : FileState) (pos n : Nat) (buf : List Byte)
    (hf : f.err = true) :
    (fsRead f pos n buf).1.err = true := by
  simp [fsRead, hf]

/-- Core of the round-trip argument: push the swapped form of `C` to the
file at `pos`, pull `C.length` bytes back from `pos` into a caller buffer
of the same length, and run the swap loop over it: the original `C`
reappears. -/
theorem roundtrip_core (f : FileState) (pos n : Nat) (C B : List Byte)
    (hf : f.err = false) (hC : C.length = n) (hB : B.length = n) :
    swapFirst n (fsRead (fsWrite f pos (bswap C)) pos n B).2 = C := by
  have herr : (fsWrite f pos (bswap C)).err = false := by
    rw [fsWrite_err]; exact hf
  have hlen : pos + n ≤ (fsWrite f pos (bswap C)).bytes.length := by
    rw [fsWrite_length f pos (bswap C) hf, bswap_length, hC]
    omega
  rw [fsRead_full _ pos n B herr hlen]
  have hslice : ((fsWrite f pos (bswap C)).bytes.drop pos).take n = bswap C := by
    have := fsWrite_drop_take f pos (bswap C) hf
    rwa [bswap_length, hC] at this
  rw [hslice, List.drop_eq_nil_of_le (le_of_eq hB), List.append_nil,
    swapFirst_of_length_eq n (bswap C) (by rw [bswap_length, hC]),
    bswap_bswap]

/-- A failed stream stays failed across any dispatched operation: every
operation either leaves the stream untouched or goes through `fsRead` /
`fsWrite`, which fail silently on a failed stream. -/
theorem applyOp_err (BS : Nat) (st : BSwap16) (o : Op)
    (h : st.file.err = true) :
    (applyOp BS st o).file.err = true := by
  cases o <;> simp [applyOp, BSwap16.read, BSwap16.write, BSwap16.multiread,
    BSwap16.multiwrite, BSwap16.flush, BSwap16.trim, fsRead, fsWrite, h]

/-- No dispatched operation changes the block count fixed at
construction. -/
theorem applyOp_numblocks (BS : Nat) (st : BSwap16) (o : Op) :
    BSwap16.numblocks (applyOp BS st o) = BSwap16.numblocks st := by
  cases o <;> rfl

/-- No dispatched operation shrinks the backing file. -/
theorem applyOp_size_ge (BS : Nat) (st : BSwap16) (o : Op) :
    BSwap16.fileSize st ≤ BSwap16.fileSize (applyOp BS st o) := by
  cases o with
  | opRead i b =>
      simp [applyOp, BSwap16.read, BSwap16.fileSize, fsRead_bytes]
  | opWrite i b =>
      exact fsWrite_length_ge st.file _ _
  | opMultiread i c b =>
      simp [applyOp, BSwap16.multiread, BSwap16.fileSize, fsRead_bytes]
  | opMultiwrite i c b =>
      exact fsWrite_length_ge st.file _ _
  | opFlush => exact Nat.le_refl _
  | opTrim i c => exact Nat.le_refl _

/-! ### The claims -/

/-- Claim C7: the byte-pair swap transform is an involution on every
buffer of even length: applying it twice reproduces the buffer,
independently of the transfer size as long as it is a multiple of 2. -/
theorem C7_swap_involution (B : List Byte) (_h : B.length % 2 = 0) :
    bswap (bswap B) = B :=
  bswap_bswap B

theorem C7_swap_involution_witness :
    ([1, 2, 3, 4] : List Byte).length % 2 = 0 ∧
      bswap (bswap [1, 2, 3, 4]) = [1, 2, 3, 4] :=
  ⟨by decide, C7_swap_involution [1, 2, 3, 4] (by decide)⟩

/-- Claim C8: the single-block operations are exactly the `count = 1`
specialization of the multi-block ones: same resulting backend state,
same resulting caller buffer. -/
theorem C8_single_ops_are_count_one (BS : Nat) (st : BSwap16) (i : Nat)
    (d : List Byte) :
    BSwap16.read BS st i d = BSwap16.multiread BS st i 1 d ∧
    BSwap16.write BS st i d = BSwap16.multiwrite BS st i 1 d := by
  constructor <;> simp [BSwap16.read, BSwap16.multiread, BSwap16.write,
    BSwap16.multiwrite, Nat.one_mul]

/-- Claim C10: `write` and `multiwrite` never mutate the caller buffer —
the swap loop runs only on the internal scratch copy; the caller buffer
after the call equals the caller buffer before it. -/
theorem C10_caller_buffer_unchanged (BS : Nat) (st : BSwap16) (i count : Nat)
    (d : List Byte) :
    (BSwap16.write BS st i d).2 = d ∧
    (BSwap16.multiwrite BS st i count d).2 = d :=
  ⟨rfl, rfl⟩

/-- Claim C1: on a healthy backend, writing a block (or a contiguous
range of blocks) with content `C` and reading the same block (or range)
back into a caller buffer of the required length yields exactly `C`. -/
theorem C1_read_write_roundtrip (BS : Nat) (st : BSwap16) (i j count : Nat)
    (C B D E : List Byte)
    (hg : BSwap16.good st = true)
    (_hi : i + 1 ≤ BSwap16.numblocks st)
    (_hj : j + count ≤ BSwap16.numblocks st)
    (hC : C.length = BS) (hB : B.length = BS)
    (hD : D.length = count * BS) (hE : E.length = count * BS) :
    (BSwap16.read BS (BSwap16.write BS st i C).1 i B).2 = C ∧
    (BSwap16.multiread BS (BSwap16.multiwrite BS st j count D).1 j count E).2
      = D := by
  have hf : st.file.err = false := by simpa [BSwap16.good] using hg
  constructor
  · have ht : C.take BS = C := List.take_of_length_le (le_of_eq hC)
    simp only [BSwap16.read, BSwap16.write, ht]
    exact roundtrip_core st.file (i * BS) BS C B hf hC hB
  · have ht : D.take (count * BS) = D := List.take_of_length_le (le_of_eq hD)
    simp only [BSwap16.multiread, BSwap16.multiwrite, ht]
    exact roundtrip_core st.file (j * BS) (count * BS) D E hf hD hE

theorem C1_read_write_roundtrip_witness :
    BSwap16.good ⟨⟨List.replicate 8 0, false⟩, 2⟩ = true ∧
    (BSwap16.read 4 (BSwap16.write 4 ⟨⟨List.replicate 8 0, false⟩, 2⟩ 0
        [1, 2, 3, 4]).1 0 [0, 0, 0, 0]).2 = [1, 2, 3, 4] ∧
    (BSwap16.multiread 4 (BSwap16.multiwrite 4
        ⟨⟨List.replicate 8 0, false⟩, 2⟩ 0 2 [1, 2, 3, 4, 5, 6, 7, 8]).1 0 2
        (List.replicate 8 0)).2 = [1, 2, 3, 4, 5, 6, 7, 8] :=
  ⟨by decide,
   (C1_read_write_roundtrip 4 ⟨⟨List.replicate 8 0, false⟩, 2⟩ 0 0 2
      [1, 2, 3, 4] [0, 0, 0, 0] [1, 2, 3, 4, 5, 6, 7, 8] (List.replicate 8 0)
      (by decide) (by decide) (by decide) (by decide) (by decide) (by decide)
      (by decide)).1,
   (C1_read_write_roundtrip 4 ⟨⟨List.replicate 8 0, false⟩, 2⟩ 0 0 2
      [1, 2, 3, 4] [0, 0, 0, 0] [1, 2, 3, 4, 5, 6, 7, 8] (List.replicate 8 0)
      (by decide) (by decide) (by decide) (by decide) (by decide) (by decide)
      (by decide)).2⟩

/-- Claim C2: after a successful `write(index, C)` on a healthy backend,
the file bytes at offsets `[index * BS, (index + 1) * BS)` are the
byte-pair-swapped form of `C`, and reading the block back returns `C`. -/
theorem C2_disk_representation (BS : Nat) (st : BSwap16) (i : Nat)
    (C B : List Byte)
    (hg : BSwap16.good st = true) (hC : C.length = BS) (hB : B.length = BS) :
    ((BSwap16.write BS st i C).1.file.bytes.drop (i * BS)).take BS = bswap C ∧
    (BSwap16.read BS (BSwap16.write BS st i C).1 i B).2 = C := by
  have hf : st.file.err = false := by simpa [BSwap16.good] using hg
  have ht : C.take BS = C := List.take_of_length_le (le_of_eq hC)
  constructor
  · simp only [BSwap16.write, ht]
    have h := fsWrite_drop_take st.file (i * BS) (bswap C) hf
    rwa [bswap_length, hC] at h
  · simp only [BSwap16.read, BSwap16.write, ht]
    exact roundtrip_core st.file (i * BS) BS C B hf hC hB

theorem C2_disk_representation_witness :
    ((BSwap16.write 4 ⟨⟨List.replicate 8 0, false⟩, 2⟩ 0
        [1, 2, 3, 4]).1.file.bytes.drop (0 * 4)).take 4 = bswap [1, 2, 3, 4] ∧
    bswap [1, 2, 3, 4] = [2, 1, 4, 3] ∧
    (BSwap16.read 4 (BSwap16.write 4 ⟨⟨List.replicate 8 0, false⟩, 2⟩ 0
        [1, 2, 3, 4]).1 0 [0, 0, 0, 0]).2 = [1, 2, 3, 4] :=
  ⟨(C2_disk_representation 4 ⟨⟨List.replicate 8 0, false⟩, 2⟩ 0 [1, 2, 3, 4]
      [0, 0, 0, 0] (by decide) (by decide) (by decide)).1,
   by decide,
   (C2_disk_representation 4 ⟨⟨List.replicate 8 0, false⟩, 2⟩ 0 [1, 2, 3, 4]
      [0, 0, 0, 0] (by decide) (by decide) (by decide)).2⟩

/-- Claim C3: with requested count 0, construction on an openable
non-empty file succeeds and resolves the block count to
`actual_size_bytes / block_size`; in particular, on a file of exactly
`N * BS` bytes with `N > 0` it resolves to `N`. -/
theorem C3_sizing_inference (BS N : Nat) (ck : Bool)
    (hBS : 0 < BS) (hN : 0 < N) :
    (∀ c : List Byte, c.length ≠ 0 →
      ∃ b, BSwap16.construct BS (some c) ck 0 = Except.ok b ∧
        BSwap16.numblocks b = c.length / BS) ∧
    (∀ c : List Byte, c.length = N * BS →
      ∃ b, BSwap16.construct BS (some c) ck 0 = Except.ok b ∧
        BSwap16.numblocks b = N) := by
  have hgen : ∀ c : List Byte, c.length ≠ 0 →
      ∃ b, BSwap16.construct BS (some c) ck 0 = Except.ok b ∧
        BSwap16.numblocks b = c.length / BS := by
    intro c hc
    refine ⟨⟨⟨c, false⟩, c.length / BS⟩, ?_, rfl⟩
    simp [BSwap16.construct, BSwap16.resolve, hc]
  refine ⟨hgen, ?_⟩
  intro c hc
  have hne : c.length ≠ 0 := by
    rw [hc]
    exact Nat.mul_ne_zero hN.ne' hBS.ne'
  obtain ⟨b, hb, hnb⟩ := hgen c hne
  refine ⟨b, hb, ?_⟩
  rw [hnb, hc, Nat.mul_div_cancel N hBS]

theorem C3_sizing_inference_witness :
    (0 : Nat) < 4 ∧ (0 : Nat) < 2 ∧
    (∃ b, BSwap16.construct 4 (some (List.replicate 8 7)) false 0
        = Except.ok b ∧ BSwap16.numblocks b = 2) :=
  ⟨by decide, by decide,
   (C3_sizing_inference 4 2 false (by decide) (by decide)).2
     (List.replicate 8 7) (by decide)⟩

/-- Claim C4: constructing with a nonzero requested count over an
existing file smaller than `count * BS` bytes succeeds, grows the file
(via a seek to `count * BS - 1` and a single zero byte, as embedded in
`resolve`) to at least `count * BS` bytes, leaves every byte before the
old end-of-file unaltered, and resolves the block count to the requested
count. -/
theorem C4_growth_on_demand (BS k : Nat) (c : List Byte) (ck : Bool)
    (hk : k ≠ 0) (hsmall : c.length < k * BS) :
    ∃ b, BSwap16.construct BS (some c) ck k = Except.ok b ∧
      k * BS ≤ BSwap16.fileSize b ∧
      b.file.bytes.take c.length = c ∧
      BSwap16.numblocks b = k := by
  refine ⟨⟨fsWrite ⟨c, false⟩ (k * BS - 1) [0], k⟩, ?_, ?_, ?_, rfl⟩
  · simp [BSwap16.construct, BSwap16.resolve, hk, hsmall]
  · show k * BS ≤ (fsWrite ⟨c, false⟩ (k * BS - 1) [0]).bytes.length
    rw [fsWrite_length _ _ _ rfl]
    simp only [List.length_singleton]
    omega
  · exact fsWrite_take_of_ge ⟨c, false⟩ (k * BS - 1) [0] rfl
      (show c.length ≤ k * BS - 1 by omega)

theorem C4_growth_on_demand_witness :
    (3 : Nat) ≠ 0 ∧ ([9, 9] : List Byte).length < 3 * 4 ∧
    (∃ b, BSwap16.construct 4 (some [9, 9]) false 3 = Except.ok b ∧
      3 * 4 ≤ BSwap16.fileSize b ∧
      b.file.bytes.take ([9, 9] : List Byte).length = [9, 9] ∧
      BSwap16.numblocks b = 3) :=
  ⟨by decide, by decide,
   C4_growth_on_demand 4 3 [9, 9] false (by decide) (by decide)⟩

/-- Claim C5: construction signals a fatal configuration error (no
instance is produced) exactly when the file cannot be opened and the
requested count is 0, or the file can neither be opened nor created, or
the file is empty and the requested count is 0; in every other case it
yields an instance. -/
theorem C5_fatal_iff (BS : Nat) (opened : Option (List Byte)) (ck : Bool)
    (n : Nat) :
    (∃ e, BSwap16.construct BS opened ck n = Except.error e) ↔
      ((opened = none ∧ (n = 0 ∨ ck = false)) ∨
       (opened = some [] ∧ n = 0)) := by
  cases opened with
  | none =>
      by_cases hn : n = 0
      · simp [BSwap16.construct, hn]
      · by_cases h0 : 0 < n * BS <;>
          cases ck <;>
            simp [BSwap16.construct, BSwap16.resolve, hn, h0]
  | some c =>
      by_cases hn : n = 0
      · by_cases hc : c.length = 0
        · have hcc : c = [] := List.length_eq_zero.mp hc
          subst hcc
          simp [BSwap16.construct, BSwap16.resolve, hn]
        · have hcc : c ≠ [] := fun h => hc (by simp [h])
          simp [BSwap16.construct, BSwap16.resolve, hn, hc, hcc]
      · by_cases hlt : c.length < n * BS <;>
          simp [BSwap16.construct, BSwap16.resolve, hn, hlt]

/-- Claim C6: the size-coverage invariant
`block_count * block_size ≤ file size` holds immediately after every
successful construction, is preserved by every dispatched operation, and
no operation ever shrinks the backing file. -/
theorem C6_size_coverage (BS : Nat) :
    (∀ (opened : Option (List Byte)) (ck : Bool) (n : Nat) (b : BSwap16),
        BSwap16.construct BS opened ck n = Except.ok b →
        BSwap16.numblocks b * BS ≤ BSwap16.fileSize b) ∧
    (∀ (st : BSwap16) (o : Op),
        BSwap16.numblocks st * BS ≤ BSwap16.fileSize st →
        BSwap16.numblocks (applyOp BS st o) * BS
          ≤ BSwap16.fileSize (applyOp BS st o)) ∧
    (∀ (st : BSwap16) (o : Op),
        BSwap16.fileSize st ≤ BSwap16.fileSize (applyOp BS st o)) := by
  have hres : ∀ (c : List Byte) (n : Nat) (b : BSwap16),
      BSwap16.resolve BS c n = Except.ok b →
      BSwap16.numblocks b * BS ≤ BSwap16.fileSize b := by
    intro c n b h
    simp only [BSwap16.resolve] at h
    split at h
    · split at h
      · simp at h
      · injection h with h
        subst h
        exact Nat.div_mul_le_self _ _
    · split at h
      · rename_i hlt
        injection h with h
        subst h
        show n * BS ≤ (fsWrite ⟨c, false⟩ (n * BS - 1) [0]).bytes.length
        rw [fsWrite_length _ _ _ rfl]
        simp only [List.length_singleton]
        omega
      · rename_i hge
        injection h with h
        subst h
        show n * BS ≤ c.length
        omega
  refine ⟨?_, ?_, applyOp_size_ge BS⟩
  · intro opened ck n b h
    cases opened with
    | some c => exact hres c n b h
    | none =>
        simp only [BSwap16.construct] at h
        split at h
        · simp at h
        · split at h
          · exact hres [] n b h
          · simp at h
  · intro st o h
    rw [applyOp_numblocks]
    exact le_trans h (applyOp_size_ge BS st o)

theorem C6_size_coverage_witness :
    (BSwap16.numblocks ⟨⟨List.replicate 8 7, false⟩, 2⟩ * 4
      ≤ BSwap16.fileSize ⟨⟨List.replicate 8 7, false⟩, 2⟩) ∧
    (BSwap16.numblocks
        (applyOp 4 ⟨⟨List.replicate 8 0, false⟩, 2⟩ (Op.opWrite 0 [1, 2, 3, 4]))
        * 4
      ≤ BSwap16.fileSize
        (applyOp 4 ⟨⟨List.replicate 8 0, false⟩, 2⟩
          (Op.opWrite 0 [1, 2, 3, 4]))) ∧
    (BSwap16.fileSize ⟨⟨List.replicate 8 0, false⟩, 2⟩
      ≤ BSwap16.fileSize
        (applyOp 4 ⟨⟨List.replicate 8 0, false⟩, 2⟩
          (Op.opWrite 0 [1, 2, 3, 4]))) :=
  ⟨(C6_size_coverage 4).1 (some (List.replicate 8 7)) false 0
     ⟨⟨List.replicate 8 7, false⟩, 2⟩ rfl,
   (C6_size_coverage 4).2.1 ⟨⟨List.replicate 8 0, false⟩, 2⟩
     (Op.opWrite 0 [1, 2, 3, 4]) (by decide),
   (C6_size_coverage 4).2.2 ⟨⟨List.replicate 8 0, false⟩, 2⟩
     (Op.opWrite 0 [1, 2, 3, 4])⟩

/-- Claim C9: the health state latches: once `good()` reports `false`,
it reports `false` after every subsequent sequence of dispatched
operations — the degradation is permanent, and no operation signals the
failure in any other way than through `good()`. -/
theorem C9_health_latching (BS : Nat) (st : BSwap16) (ops : List Op)
    (h : BSwap16.good st = false) :
    BSwap16.good (ops.foldl (applyOp BS) st) = false := by
  induction ops generalizing st with
  | nil => exact h
  | cons o rest ih =>
      have herr : st.file.err = true := by simpa [BSwap16.good] using h
      have h2 : BSwap16.good (applyOp BS st o) = false := by
        simp [BSwap16.good, applyOp_err BS st o herr]
      exact ih (applyOp BS st o) h2

theorem C9_health_latching_witness :
    BSwap16.good ⟨⟨List.replicate 8 0, true⟩, 2⟩ = false ∧
    BSwap16.good
      (List.foldl (applyOp 4) ⟨⟨List.replicate 8 0, true⟩, 2⟩
        [Op.opRead 0 [0, 0, 0, 0], Op.opWrite 1 [1, 2, 3, 4], Op.opFlush])
      = false :=
  ⟨by decide,
   C9_health_latching 4 ⟨⟨List.replicate 8 0, true⟩, 2⟩
     [Op.opRead 0 [0, 0, 0, 0], Op.opWrite 1 [1, 2, 3, 4], Op.opFlush]
     (by decide)⟩

end NbdCpp
